import Mathlib

/-!
Verification of the transdrop peer file-sharing core against its
natural-language specification.  The definitions below are a shallow
embedding of the TypeScript source:

* `src/frontend/src/hooks/useFileTransfer.ts` (chunked transfer engine),
* `src/frontend/src/hooks/useWebRTC.ts` (peer session manager),
* `src/backend/src/server.ts` (relay / coordination service),
* `src/frontend/src/utils/pairingHistory.ts` (pairing store and derived codes).

JS `ArrayBuffer`s are lists of byte values, JS `Map`s are insertion-ordered
association lists, JS `Set`s are duplicate-free lists, and `Date.now()` /
the sender name resolved by the caller are passed in as explicit arguments.
-/

/-- A JS `ArrayBuffer`: a list of byte values. -/
abbrev ByteBuf := List Nat

/-- JS `Map.set`: replace the value in place if the key is present
(keeping its position), otherwise append a new entry at the end. -/
def assocSet {β : Type} (m : List (String × β)) (k : String) (v : β) :
    List (String × β) :=
  if (m.lookup k).isSome then
    m.map (fun p => if p.1 = k then (k, v) else p)
  else m ++ [(k, v)]

/-- JS `Map.delete`: drop the entry with the given key. -/
def assocDelete {β : Type} (m : List (String × β)) (k : String) :
    List (String × β) :=
  m.filter (fun p => p.1 != k)

/-- JS `Set.add`: append the element unless already present. -/
def setAdd (l : List String) (x : String) : List String :=
  if x ∈ l then l else l ++ [x]

/-- JS `Set.delete`: remove the element. -/
def setRemove (l : List String) (x : String) : List String :=
  l.filter (fun y => y != x)

/-- The `FileMetadata` message of `useFileTransfer.ts` (the JS field `from`
is spelled `fromName` here because `from` is reserved in Lean). -/
structure FileMetadata where
  fileName : String
  fileSize : Nat
  fileType : String
  totalChunks : Nat
  fromName : String
  timestamp : Nat
deriving DecidableEq

/-- The per-file receiving state `FileChunkData` of `useFileTransfer.ts`. -/
structure FileChunkData where
  chunks : List ByteBuf
  metadata : FileMetadata
  receivedSize : Nat
  lastChunkTime : Nat
deriving DecidableEq

/-- The `ReceivedFile` handed to `onFileReceived`; `blob` is the byte
content of the assembled `Blob` (the object URL is presentation-side and
not modelled), and `fromName` the resolved sender name. -/
structure ReceivedFile where
  name : String
  size : Nat
  type : String
  blob : ByteBuf
  fromName : String
deriving DecidableEq

/-- The mutable refs of `useFileTransfer`: `fileChunksRef` (insertion
ordered), `pendingChunksRef`, and `fileTimeoutRefs`.  A pending timer is
recorded as `(fileName, armedChunkCount)` where `armedChunkCount` is the
session's chunk count when the timer was armed: the `setTimeout` callback
compares the live chunk count with the count captured at arming (any chunk
arriving in between clears the timer), so this pair determines the
callback's behaviour. -/
structure TransferState where
  fileChunks : List (String × FileChunkData)
  pendingChunks : List ByteBuf
  fileTimeouts : List (String × Nat)
deriving DecidableEq

/-- Embedding of `handleFileMetadata` in `useFileTransfer.ts`: create the file entry,
draining any chunks that arrived before the metadata. -/
def handleFileMetadata (st : TransferState) (metadata : FileMetadata)
    (now : Nat) : TransferState :=
  let fileEntry : FileChunkData :=
    { chunks := [], metadata, receivedSize := 0, lastChunkTime := now }
  if 0 < st.pendingChunks.length then
    let fileEntry :=
      { fileEntry with
        chunks := fileEntry.chunks ++ st.pendingChunks,
        receivedSize := st.pendingChunks.foldl (fun sum c => sum + c.length) 0 }
    { st with fileChunks := assocSet st.fileChunks metadata.fileName fileEntry,
              pendingChunks := [] }
  else
    { st with fileChunks := assocSet st.fileChunks metadata.fileName fileEntry }

/-- The sender-name resolution `fileData.metadata.from || senderDeviceName
|| 'Unknown'` (an empty string is falsy in JS). -/
def resolveSender (fromName : String) (senderDeviceName : Option String) :
    String :=
  if fromName ≠ "" then fromName else senderDeviceName.getD "Unknown"

/-- Embedding of `handleFileChunk` in `useFileTransfer.ts`.  The target session is the
most recently created entry provided its chunk count is still below its
declared total; otherwise the chunk is buffered.  After appending, the
completion test `allChunksReceived || sizeMatch` runs, where
`sizeMatch = receivedSize >= fileSize || |receivedSize - fileSize| <= 1024`;
on completion the assembled file is emitted and the session deleted, and
otherwise a salvage timer is (re-)armed for the session.  Returns the new
state together with the file emitted, if any. -/
def handleFileChunk (st : TransferState) (chunk : ByteBuf)
    (senderDeviceName : Option String) (now : Nat) :
    TransferState × Option ReceivedFile :=
  match st.fileChunks.getLast? with
  | none => ({ st with pendingChunks := st.pendingChunks ++ [chunk] }, none)
  | some (key, fd) =>
    if fd.chunks.length < fd.metadata.totalChunks then
      let fd' : FileChunkData :=
        { fd with chunks := fd.chunks ++ [chunk],
                  receivedSize := fd.receivedSize + chunk.length,
                  lastChunkTime := now }
      let sizeDifference :=
        ((fd'.receivedSize : Int) - (fd'.metadata.fileSize : Int)).natAbs
      let allChunksReceived := fd'.metadata.totalChunks ≤ fd'.chunks.length
      let sizeMatch :=
        fd'.metadata.fileSize ≤ fd'.receivedSize ∨ sizeDifference ≤ 1024
      let fileTimeouts1 := assocDelete st.fileTimeouts key
      let fileChunks1 := assocSet st.fileChunks key fd'
      if allChunksReceived ∨ sizeMatch then
        let file : ReceivedFile :=
          { name := fd'.metadata.fileName, size := fd'.metadata.fileSize,
            type := fd'.metadata.fileType, blob := fd'.chunks.flatten,
            fromName := resolveSender fd'.metadata.fromName senderDeviceName }
        ({ st with
            fileChunks := assocDelete fileChunks1 fd'.metadata.fileName,
            fileTimeouts := assocDelete fileTimeouts1 fd'.metadata.fileName },
         some file)
      else
        ({ st with
            fileChunks := fileChunks1,
            fileTimeouts :=
              assocSet fileTimeouts1 fd'.metadata.fileName fd'.chunks.length },
         none)
    else ({ st with pendingChunks := st.pendingChunks ++ [chunk] }, none)

/-- The salvage `setTimeout` callback of `handleFileChunk` firing for
`fileName`.  `armedChunkCount` is the chunk count captured when the timer
was armed; the callback completes with the data on hand exactly when the
session still exists and its chunk count equals the captured one (mirrors
`currentFileData.chunks.length === fileData.chunks.length`), deleting the
session and the timer entry.  There is no failure branch: the callback
never discards the session or reports an error. -/
def fireTimeout (st : TransferState) (fileName : String)
    (armedChunkCount : Nat) (senderDeviceName : Option String) :
    TransferState × Option ReceivedFile :=
  match st.fileChunks.lookup fileName with
  | some currentFileData =>
    if currentFileData.chunks.length = armedChunkCount then
      let file : ReceivedFile :=
        { name := currentFileData.metadata.fileName,
          size := currentFileData.metadata.fileSize,
          type := currentFileData.metadata.fileType,
          blob := currentFileData.chunks.flatten,
          fromName :=
            resolveSender currentFileData.metadata.fromName senderDeviceName }
      ({ st with
          fileChunks :=
            assocDelete st.fileChunks currentFileData.metadata.fileName,
          fileTimeouts :=
            assocDelete st.fileTimeouts currentFileData.metadata.fileName },
       some file)
    else (st, none)
  | none => (st, none)

/-- The empty receiving state. -/
def TransferState.empty : TransferState := ⟨[], [], []⟩

set_option maxRecDepth 8000

section TransferClaims

/-- Concrete metadata for exercising the completion check: one declared
chunk, 5000 declared bytes. -/
def mdShortFile : FileMetadata :=
  { fileName := "report.pdf", fileSize := 5000, fileType := "application/pdf",
    totalChunks := 1, fromName := "Alice", timestamp := 0 }

/-- Receiving state right after the metadata for `mdShortFile` arrived. -/
def stShortFile : TransferState :=
  handleFileMetadata TransferState.empty mdShortFile 0

/-- C1 (counterexample): after metadata declaring `totalChunks = 1` and
`fileSize = 5000`, a single 10-byte chunk completes the transfer
immediately, although the received byte count (10) is not within 1 KiB of
the declared size — the code completes on `allChunksReceived || sizeMatch`
(an OR), so the claim's conjunctive test, under which this session should
have stayed open, is refuted. -/
theorem completion_or_counterexample :
    ((handleFileChunk stShortFile (List.replicate 10 7) none 1).2.isSome
        = true)
      ∧ ¬ (((List.replicate 10 7 : ByteBuf).length : Int) - 5000).natAbs
            ≤ 1024 := by
  constructor
  · decide
  · decide

/-- C1 (amended): evaluated after a chunk arrival that found an open
session (the most recent entry, chunk count below the declared total), the
engine completes immediately exactly when the chunk count reaches the
declared `totalChunks` OR the received byte count reaches `fileSize` OR it
is within 1 KiB of `fileSize`; the chunk-count and byte-count conditions
are combined disjunctively, not conjunctively. -/
theorem completion_condition_amended (st : TransferState) (chunk : ByteBuf)
    (sender : Option String) (now : Nat) (k : String) (fd : FileChunkData)
    (hlast : st.fileChunks.getLast? = some (k, fd))
    (hopen : fd.chunks.length < fd.metadata.totalChunks) :
    ((handleFileChunk st chunk sender now).2.isSome = true) ↔
      (fd.metadata.totalChunks ≤ fd.chunks.length + 1
        ∨ fd.metadata.fileSize ≤ fd.receivedSize + chunk.length
        ∨ (((fd.receivedSize + chunk.length : Nat) : Int)
            - (fd.metadata.fileSize : Int)).natAbs ≤ 1024) := by
  unfold handleFileChunk
  split
  · simp_all
  · rename_i key fd1 heq
    rw [hlast] at heq
    injection heq with heq
    injection heq with hk hfd
    subst hk
    subst hfd
    rw [if_pos hopen]
    simp only [List.length_append, List.length_cons, List.length_nil,
      Nat.zero_add]
    split
    · rename_i hcond
      simp only [Option.isSome_some, true_iff]
      simpa using hcond
    · rename_i hcond
      simp only [Option.isSome_none, Bool.false_eq_true, false_iff]
      simpa using hcond

/-- C1 (witness for the amended theorem): the hypotheses hold for the
concrete state `stShortFile` with a 100-byte chunk, and there the iff
instantiates with both sides true (`5000 ≤ 0 + 5000` fails but the claim
needs the disjunction; here the single declared chunk arrives, so the
chunk-count disjunct holds). -/
theorem completion_condition_amended_witness :
    stShortFile.fileChunks.getLast?
        = some ("report.pdf",
            { chunks := [], metadata := mdShortFile, receivedSize := 0,
              lastChunkTime := 0 })
      ∧ (({ chunks := [], metadata := mdShortFile, receivedSize := 0,
              lastChunkTime := 0 } : FileChunkData).chunks.length
          < mdShortFile.totalChunks)
      ∧ (((handleFileChunk stShortFile (List.replicate 10 7) none 1).2.isSome
            = true) ↔
          (mdShortFile.totalChunks ≤ ([] : List ByteBuf).length + 1
            ∨ mdShortFile.fileSize ≤ 0 + (List.replicate 10 7 : ByteBuf).length
            ∨ (((0 + (List.replicate 10 7 : ByteBuf).length : Nat) : Int)
                - (mdShortFile.fileSize : Int)).natAbs ≤ 1024)) :=
  ⟨by decide, by decide,
    completion_condition_amended stShortFile (List.replicate 10 7) none 1
      "report.pdf"
      { chunks := [], metadata := mdShortFile, receivedSize := 0,
        lastChunkTime := 0 }
      (by decide) (by decide)⟩

/-- Metadata declaring ten chunks and 10000 bytes, for the salvage-timer
counterexample. -/
def mdTenChunks : FileMetadata :=
  { fileName := "video.mp4", fileSize := 2560, fileType := "video/mp4",
    totalChunks := 10, fromName := "Bob", timestamp := 0 }

/-- State after the `mdTenChunks` metadata and five 256-byte chunks:
half the declared chunks and half the declared bytes are still missing,
and the salvage timer is armed with a captured chunk count of 5. -/
def stHalfMissing : TransferState :=
  let st1 := handleFileMetadata TransferState.empty mdTenChunks 0
  let st2 := (handleFileChunk st1 (List.replicate 256 1) none 1).1
  let st3 := (handleFileChunk st2 (List.replicate 256 2) none 2).1
  let st4 := (handleFileChunk st3 (List.replicate 256 3) none 3).1
  let st5 := (handleFileChunk st4 (List.replicate 256 4) none 4).1
  (handleFileChunk st5 (List.replicate 256 5) none 5).1

/-- C2 (counterexample): with chunks 1–5 of 10 delivered (1280 of 2560
bytes, i.e. 50% of the bytes and 5 chunks missing) and the salvage timer
armed, firing the timer completes the transfer with the bytes on
hand (1280 bytes) — the session is not discarded and no error is
surfaced, refuting the claim that such a session is discarded as failed
and never completed. -/
theorem salvage_always_completes_counterexample :
    stHalfMissing.fileTimeouts = [("video.mp4", 5)]
      ∧ ((fireTimeout stHalfMissing "video.mp4" 5 none).2.map
            (fun f => f.blob.length) = some 1280)
      ∧ (fireTimeout stHalfMissing "video.mp4" 5 none).1.fileChunks = [] := by
  refine ⟨by decide, ?_, by decide⟩
  decide

/-- Helper: a firing salvage timer whose session still exists with the
armed chunk count always emits the completed file. -/
theorem fireTimeout_eq_of_lookup (st : TransferState)
    (fileName : String) (cnt : Nat) (sender : Option String)
    (fd : FileChunkData)
    (hlk : st.fileChunks.lookup fileName = some fd)
    (hcnt : fd.chunks.length = cnt) :
    (fireTimeout st fileName cnt sender).2 =
      some { name := fd.metadata.fileName, size := fd.metadata.fileSize,
             type := fd.metadata.fileType, blob := fd.chunks.flatten,
             fromName := resolveSender fd.metadata.fromName sender } := by
  unfold fireTimeout
  split
  · rename_i cfd heq
    rw [hlk] at heq
    injection heq with heq
    subst heq
    rw [if_pos hcnt]
  · rename_i heq
    rw [hlk] at heq
    exact absurd heq (by simp)

/-- C2 (amended): when the salvage timer fires for a session that still
exists with no new chunk having arrived since arming (chunk count equal to
the captured count), the engine always completes the transfer with the
data on hand — whatever the missing byte fraction or missing chunk
count — emitting the declared name, size and type with the bytes received
so far; it never discards the session as failed and has no error path. -/
theorem salvage_timer_completes_unconditionally (st : TransferState)
    (fileName : String) (cnt : Nat) (sender : Option String)
    (fd : FileChunkData)
    (hlk : st.fileChunks.lookup fileName = some fd)
    (hcnt : fd.chunks.length = cnt) :
    (fireTimeout st fileName cnt sender).2 =
      some { name := fd.metadata.fileName, size := fd.metadata.fileSize,
             type := fd.metadata.fileType, blob := fd.chunks.flatten,
             fromName := resolveSender fd.metadata.fromName sender } :=
  fireTimeout_eq_of_lookup st fileName cnt sender fd hlk hcnt

/-- C2 (witness for the amended theorem): instantiated at the concrete
half-missing state, where the timer fires and completes with the five
chunks on hand. -/
theorem salvage_timer_completes_unconditionally_witness :
    (stHalfMissing.fileChunks.lookup "video.mp4").isSome = true
      ∧ ((fireTimeout stHalfMissing "video.mp4" 5 none).2 ≠ none) := by
  have h5 : stHalfMissing.fileChunks.lookup "video.mp4"
      = some { chunks :=
                 [List.replicate 256 1, List.replicate 256 2,
                  List.replicate 256 3, List.replicate 256 4,
                  List.replicate 256 5],
               metadata := mdTenChunks, receivedSize := 1280,
               lastChunkTime := 5 } := by decide
  refine ⟨by rw [h5]; rfl, ?_⟩
  rw [salvage_timer_completes_unconditionally stHalfMissing "video.mp4" 5
    none _ h5 (by decide)]
  simp

end TransferClaims

section Chunking

/-- The constant `CHUNK_SIZE = 16 * 1024` of `sendFile` in `useFileTransfer.ts`. -/
def CHUNK_SIZE : Nat := 16 * 1024

/-- Embedding of `Math.ceil(byteLength / CHUNK_SIZE)`: the ceiling division computed by
`sendFile` (exact for the integer byte lengths involved). -/
def totalChunksFor (len : Nat) : Nat := (len + (CHUNK_SIZE - 1)) / CHUNK_SIZE

/-- The chunk sequence produced by the `sendFile` loop: for each
`chunkIndex` below `totalChunks`, the slice
`arrayBuffer.slice(start, end)` with `start = chunkIndex * CHUNK_SIZE` and
`end = min (start + CHUNK_SIZE) byteLength`. -/
def sendFileChunks (buf : ByteBuf) : List ByteBuf :=
  (List.range (totalChunksFor buf.length)).map (fun chunkIndex =>
    let start := chunkIndex * CHUNK_SIZE
    let stop := min (start + CHUNK_SIZE) buf.length
    (buf.drop start).take (stop - start))

theorem chunk_slice (buf : ByteBuf) (i : Nat) :
    (buf.drop (i * CHUNK_SIZE)).take
        (min (i * CHUNK_SIZE + CHUNK_SIZE) buf.length - i * CHUNK_SIZE)
      = (buf.drop (i * CHUNK_SIZE)).take CHUNK_SIZE := by
  rw [List.take_eq_take, List.length_drop]
  have hCS : CHUNK_SIZE = 16384 := rfl
  rw [hCS]
  omega

theorem sendFileChunks_plain (buf : ByteBuf) :
    sendFileChunks buf
      = (List.range (totalChunksFor buf.length)).map
          (fun i => (buf.drop (i * CHUNK_SIZE)).take CHUNK_SIZE) := by
  unfold sendFileChunks
  apply List.map_congr_left
  intro i _
  exact chunk_slice buf i

theorem flatten_plain_chunks (buf : ByteBuf) (k : Nat) :
    ((List.range k).map
        (fun i => (buf.drop (i * CHUNK_SIZE)).take CHUNK_SIZE)).flatten
      = buf.take (k * CHUNK_SIZE) := by
  induction k with
  | zero => simp
  | succ k ih =>
    rw [List.range_succ, List.map_append, List.flatten_append, ih]
    simp only [List.map_cons, List.map_nil, List.flatten_cons,
      List.flatten_nil, List.append_nil]
    rw [Nat.succ_mul, List.take_add]

/-- C4: for every byte buffer, splitting it as `sendFile` does — slicing
`CHUNK_SIZE = 16384` bytes at a time into `ceil(size / 16384)` chunks, the
last one possibly shorter — and then concatenating the chunks in order, as
the receiver's `Blob` assembly does, reproduces the original buffer
exactly. -/
theorem chunk_roundtrip (buf : ByteBuf) :
    (sendFileChunks buf).length = (buf.length + (16384 - 1)) / 16384
      ∧ (sendFileChunks buf).flatten = buf := by
  constructor
  · simp [sendFileChunks, totalChunksFor, CHUNK_SIZE]
  · rw [sendFileChunks_plain, flatten_plain_chunks]
    apply List.take_of_length_le
    unfold totalChunksFor
    have hCS : CHUNK_SIZE = 16384 := rfl
    rw [hCS]
    omega

end Chunking

section PairingCode

/-- JS `ToInt32`: wrap an integer to the signed 32-bit range, as the
`hash & hash` step (and the `<< 5` shift) of `generatePairingRoomId` in
`pairingHistory.ts` does. -/
def toInt32 (n : Int) : Int :=
  let m := n % 4294967296
  if m < 2147483648 then m else m - 4294967296

/-- One iteration of the rolling hash:
`hash = ((hash << 5) - hash) + char; hash = hash & hash`.  On an int32
`hash`, `hash << 5` is `toInt32 (hash * 32)`; the subtraction and the
addition of the char code are exact, and `hash & hash` re-wraps to 32
bits. -/
def hashStep (hash : Int) (c : Nat) : Int :=
  toInt32 (toInt32 (hash * 32) - hash + c)

/-- The rolling hash over the combined string's UTF-16 code units,
starting from 0. -/
def jsHash (codeUnits : List Nat) : Int := codeUnits.foldl hashStep 0

/-- JS default string comparison: lexicographic on UTF-16 code units. -/
def codeUnitLt : List Nat → List Nat → Bool
  | _, [] => false
  | [], _ :: _ => true
  | a :: as, b :: bs =>
    if a < b then true else if b < a then false else codeUnitLt as bs

/-- Embedding of `[deviceName1, deviceName2].sort()` on a two-element array: swap the
pair exactly when the second name compares strictly below the first. -/
def sortPair (x y : List Nat) : List Nat × List Nat :=
  if codeUnitLt y x then (y, x) else (x, y)

/-- A decimal digit character. -/
def digitChar (d : Nat) : Char := Char.ofNat (48 + d)

/-- JS `Number.prototype.toString` on the non-negative integer
`Math.abs(hash)`: standard decimal rendering, most significant digit
first, `"0"` for zero. -/
def natToDigits (n : Nat) : List Char :=
  if _h : n < 10 then [digitChar n]
  else natToDigits (n / 10) ++ [digitChar (n % 10)]
decreasing_by exact Nat.div_lt_self (by omega) (by omega)

/-- Embedding of `.toString().padStart(6, '0').slice(0, 6)` applied to the absolute
value of the hash. -/
def renderSixDigits (hash : Int) : List Char :=
  (List.replicate (6 - (natToDigits hash.natAbs).length) '0'
    ++ natToDigits hash.natAbs).take 6

/-- Embedding of `generatePairingRoomId` in `pairingHistory.ts`: sort the two names,
join them with `'-'` (code unit 45), hash, and fold the absolute value
into six decimal digits.  Names are given as their UTF-16 code-unit
lists. -/
def generatePairingRoomId (deviceName1 deviceName2 : List Nat) :
    List Char :=
  renderSixDigits (jsHash ((sortPair deviceName1 deviceName2).1
    ++ (45 :: (sortPair deviceName1 deviceName2).2)))

theorem codeUnitLt_asymm (a : List Nat) :
    ∀ b, codeUnitLt a b = true → codeUnitLt b a = false := by
  induction a with
  | nil =>
    intro b hb
    cases b with
    | nil => simp [codeUnitLt] at hb
    | cons y ys => simp [codeUnitLt]
  | cons x xs ih =>
    intro b hb
    cases b with
    | nil => simp [codeUnitLt] at hb
    | cons y ys =>
      by_cases hxy : x < y
      · have hyx : ¬ y < x := by omega
        simp [codeUnitLt, hxy, hyx]
      · by_cases hyx : y < x
        · simp [codeUnitLt, hxy, hyx] at hb
        · simp [codeUnitLt, hxy, hyx] at hb ⊢
          exact ih ys hb

theorem codeUnitLt_antisymm (a : List Nat) :
    ∀ b, codeUnitLt a b = false → codeUnitLt b a = false → a = b := by
  induction a with
  | nil =>
    intro b h1 h2
    cases b with
    | nil => rfl
    | cons y ys => simp [codeUnitLt] at h1
  | cons x xs ih =>
    intro b h1 h2
    cases b with
    | nil => simp [codeUnitLt] at h2
    | cons y ys =>
      by_cases hxy : x < y
      · simp [codeUnitLt, hxy] at h1
      · by_cases hyx : y < x
        · simp [codeUnitLt, hyx, hxy] at h2
        · have hxy2 : x = y := by omega
          subst hxy2
          simp [codeUnitLt, hxy] at h1 h2
          rw [ih ys h1 h2]

theorem sortPair_comm (a b : List Nat) : sortPair a b = sortPair b a := by
  unfold sortPair
  by_cases h1 : codeUnitLt b a = true
  · rw [if_pos h1, if_neg (by rw [codeUnitLt_asymm b a h1]; simp)]
  · by_cases h2 : codeUnitLt a b = true
    · rw [if_neg (by simp [h1]), if_pos h2]
    · have hab : a = b :=
        codeUnitLt_antisymm a b (by simpa using h2) (by simpa using h1)
      subst hab
      rfl

theorem digitChar_isDigit (d : Nat) (h : d < 10) :
    (digitChar d).isDigit = true := by
  interval_cases d <;> decide

theorem natToDigits_ne_nil (n : Nat) : natToDigits n ≠ [] := by
  rw [natToDigits]
  split
  · simp
  · simp

theorem natToDigits_digits (n : Nat) :
    ∀ c ∈ natToDigits n, c.isDigit = true := by
  induction n using Nat.strong_induction_on with
  | _ n ih =>
    intro c hc
    rw [natToDigits] at hc
    split at hc
    · rename_i h
      simp only [List.mem_singleton] at hc
      subst hc
      exact digitChar_isDigit n h
    · rename_i h
      rw [List.mem_append] at hc
      rcases hc with hc | hc
      · exact ih (n / 10) (Nat.div_lt_self (by omega) (by omega)) c hc
      · simp only [List.mem_singleton] at hc
        subst hc
        exact digitChar_isDigit (n % 10) (Nat.mod_lt _ (by omega))

theorem renderSixDigits_length (hash : Int) :
    (renderSixDigits hash).length = 6 := by
  unfold renderSixDigits
  rw [List.length_take, List.length_append, List.length_replicate]
  have h1 : 0 < (natToDigits hash.natAbs).length :=
    List.length_pos.mpr (natToDigits_ne_nil _)
  omega

theorem renderSixDigits_digits (hash : Int) :
    ∀ c ∈ renderSixDigits hash, c.isDigit = true := by
  intro c hc
  unfold renderSixDigits at hc
  have hc' := List.take_subset _ _ hc
  rw [List.mem_append] at hc'
  rcases hc' with hc' | hc'
  · rw [List.eq_of_mem_replicate hc']
    decide
  · exact natToDigits_digits _ c hc'

/-- C5: the derived rendezvous code is order-independent in the two
display names, and it is always exactly six decimal digits (so, as a
string, it matches `^\d{6}$`). -/
theorem pairing_code_symmetric_six_digits (deviceName1 deviceName2 : List Nat) :
    generatePairingRoomId deviceName1 deviceName2
        = generatePairingRoomId deviceName2 deviceName1
      ∧ (generatePairingRoomId deviceName1 deviceName2).length = 6
      ∧ ∀ c ∈ generatePairingRoomId deviceName1 deviceName2,
          c.isDigit = true := by
  refine ⟨?_, renderSixDigits_length _, renderSixDigits_digits _⟩
  unfold generatePairingRoomId
  rw [sortPair_comm]

end PairingCode

section PeerSession

/-- The mutable refs of `useWebRTC.ts`: `peersRef` (each transport tagged
with the `initiator` flag it was created with), `connectedPeersRef`,
`notifiedPeersRef` and `peerDeviceNamesRef`.  UI-only mirrors (`peers`,
`connectedPeers` React state) carry no extra information and are
omitted. -/
structure ClientState where
  peers : List (String × Bool)
  connectedPeers : List String
  notifiedPeers : List String
  peerDeviceNames : List (String × String)
deriving DecidableEq

/-- The fresh state of a hook instance. -/
def ClientState.empty : ClientState := ⟨[], [], [], []⟩

/-- Embedding of `createPeer(peerId, initiator)` in `useWebRTC.ts`: skip if a transport
for the id already exists, otherwise record the new transport with its
initiator flag. -/
def createPeer (st : ClientState) (peerId : String) (initiator : Bool) :
    ClientState :=
  if (st.peers.lookup peerId).isSome then st
  else { st with peers := st.peers ++ [(peerId, initiator)] }

/-- Processing of one entry of the `'peers'` event (new format): create an
outbound transport as initiator if none exists, cache the device name, and
notify the application once per id (with or without a name).  Returns the
new state and the ids notified as discovered. -/
def processPeersEntry (st : ClientState) (entry : String × Option String) :
    ClientState × List String :=
  let peerId := entry.1
  let deviceName := entry.2
  let st1 :=
    if (st.peers.lookup peerId).isSome then st else createPeer st peerId true
  let st2 :=
    match deviceName with
    | some n =>
      { st1 with peerDeviceNames := assocSet st1.peerDeviceNames peerId n }
    | none => st1
  if deviceName.isSome ∧ peerId ∉ st2.notifiedPeers then
    ({ st2 with notifiedPeers := setAdd st2.notifiedPeers peerId }, [peerId])
  else if deviceName.isNone ∧ peerId ∉ st2.notifiedPeers then
    ({ st2 with notifiedPeers := setAdd st2.notifiedPeers peerId }, [peerId])
  else (st2, [])

/-- The loop body of the `'peers'` handler: process one entry against the
accumulated state, appending its notifications. -/
def peersFold (acc : ClientState × List String)
    (e : String × Option String) : ClientState × List String :=
  let r := processPeersEntry acc.1 e
  (r.1, acc.2 ++ r.2)

/-- The `socketInstance.on('peers')` handler of `useWebRTC.ts` (new
format: entries with ids and optional device names), folded over the
member list. -/
def processPeersEvent (st : ClientState)
    (entries : List (String × Option String)) : ClientState × List String :=
  entries.foldl peersFold (st, [])

/-- The `socketInstance.on('peer-joined')` handler of `useWebRTC.ts`:
return immediately if the id was already notified; otherwise create an
inbound (non-initiator) transport if none exists, cache the name, and
notify. -/
def processPeerJoined (st : ClientState) (peerId : String)
    (deviceName : Option String) : ClientState × List String :=
  if peerId ∈ st.notifiedPeers then (st, [])
  else
    let st1 :=
      if (st.peers.lookup peerId).isSome then st
      else createPeer st peerId false
    let st2 :=
      match deviceName with
      | some n =>
        { st1 with peerDeviceNames := assocSet st1.peerDeviceNames peerId n }
      | none => st1
    if deviceName.isSome ∧ peerId ∉ st2.notifiedPeers then
      ({ st2 with notifiedPeers := setAdd st2.notifiedPeers peerId }, [peerId])
    else if deviceName.isNone ∧ peerId ∉ st2.notifiedPeers then
      ({ st2 with notifiedPeers := setAdd st2.notifiedPeers peerId }, [peerId])
    else (st2, [])

/-- The `socketInstance.on('offer')` handler, restricted to its effect on
the modelled state: only acts when a transport for the sender exists
(signalling itself is transport-side); caches the sender's name and
notifies once when a name was carried. -/
def processOffer (st : ClientState) (sender : String)
    (deviceName : Option String) : ClientState × List String :=
  if (st.peers.lookup sender).isSome then
    let st1 :=
      match deviceName with
      | some n =>
        { st with peerDeviceNames := assocSet st.peerDeviceNames sender n }
      | none => st
    if deviceName.isSome ∧ sender ∉ st1.notifiedPeers then
      ({ st1 with notifiedPeers := setAdd st1.notifiedPeers sender }, [sender])
    else (st1, [])
  else (st, [])

/-- The transport-level `peer.on('connect')` handler: mark the peer
connected and fire the discovery notification if it has not fired yet. -/
def processConnect (st : ClientState) (peerId : String) :
    ClientState × List String :=
  let st1 := { st with connectedPeers := setAdd st.connectedPeers peerId }
  if peerId ∉ st1.notifiedPeers then
    ({ st1 with notifiedPeers := setAdd st1.notifiedPeers peerId }, [peerId])
  else (st1, [])

/-- The transport-level `peer.on('close')` handler: forget the transport,
the connected flag, the notify-guard entry and the cached name. -/
def processClose (st : ClientState) (peerId : String) :
    ClientState × List String :=
  ({ st with connectedPeers := setRemove st.connectedPeers peerId,
             peers := assocDelete st.peers peerId,
             notifiedPeers := setRemove st.notifiedPeers peerId,
             peerDeviceNames := assocDelete st.peerDeviceNames peerId }, [])

/-- The `socketInstance.on('peer-left')` handler: destroy the transport
and drop the connected flag (the notify guard and the cached name are not
cleared here). -/
def processPeerLeft (st : ClientState) (peerId : String) :
    ClientState × List String :=
  ({ st with peers := assocDelete st.peers peerId,
             connectedPeers := setRemove st.connectedPeers peerId }, [])

/-- The signals of `useWebRTC.ts` that can reference a remote id:
member-list delivery (in both wire formats), a `peer-joined` event, an
inbound offer, transport-level connect and close, and a `peer-left`
event. -/
inductive RTCEvent where
  | peersEvt (entries : List (String × Option String))
  | peersEvtLegacy (ids : List String)
  | peerJoined (peerId : String) (deviceName : Option String)
  | offerEvt (sender : String) (deviceName : Option String)
  | connectEvt (peerId : String)
  | closeEvt (peerId : String)
  | peerLeftEvt (peerId : String)
deriving DecidableEq

/-- Dispatch one event to its handler, returning the new state and the
ids reported as discovered to the application layer. -/
def step (st : ClientState) : RTCEvent → ClientState × List String
  | .peersEvt entries => processPeersEvent st entries
  | .peersEvtLegacy ids =>
    (ids.foldl (fun s i =>
      if (s.peers.lookup i).isSome then s else createPeer s i true) st, [])
  | .peerJoined p n => processPeerJoined st p n
  | .offerEvt s n => processOffer st s n
  | .connectEvt p => processConnect st p
  | .closeEvt p => processClose st p
  | .peerLeftEvt p => processPeerLeft st p

/-- Run a whole event trace, concatenating the discovery notifications in
order. -/
def runEvents (st : ClientState) : List RTCEvent → ClientState × List String
  | [] => (st, [])
  | e :: es =>
    let r := step st e
    let r2 := runEvents r.1 es
    (r2.1, r.2 ++ r2.2)

/-- Embedding of `sendData` in `useWebRTC.ts`.  `sendOutcome` is the result of the
underlying `peer.send` call (for both the binary and the JSON branch),
`Except.error` standing for a thrown exception, which `sendData` catches
and converts to `false`.  Being a total function into `Bool`, the
embedding can propagate no exception to the caller. -/
def sendData (st : ClientState) (peerId : String)
    (sendOutcome : Except String Unit) : Bool :=
  let peer := st.peers.lookup peerId
  let isConnected := peerId ∈ st.connectedPeers
  if peer.isSome ∧ isConnected then
    match sendOutcome with
    | .ok _ => true
    | .error _ => false
  else false

/-- C8: `sendData` returns `true` exactly when a transport for the peer
exists, the peer is in the connected set, and the underlying send
succeeds; in every other case (no transport, transport not connected, or
the send throwing) it returns `false`, and as a total boolean function it
propagates no exception. -/
theorem sendData_true_iff (st : ClientState) (peerId : String)
    (sendOutcome : Except String Unit) :
    sendData st peerId sendOutcome = true ↔
      ((st.peers.lookup peerId).isSome
        ∧ peerId ∈ st.connectedPeers
        ∧ sendOutcome = Except.ok ()) := by
  unfold sendData
  by_cases h1 : (st.peers.lookup peerId).isSome ∧ peerId ∈ st.connectedPeers
  · rw [if_pos h1]
    cases sendOutcome with
    | ok u =>
      cases u
      simp [h1.1, h1.2]
    | error e => simp [h1.1, h1.2]
  · rw [if_neg h1]
    simp only [Bool.false_eq_true, false_iff]
    intro hcon
    exact h1 ⟨hcon.1, hcon.2.1⟩

end PeerSession

section NotifyOnce

/-- One when the notify guard contains `pid`, else zero. -/
def notifiedInd (pid : String) (st : ClientState) : Nat :=
  if pid ∈ st.notifiedPeers then 1 else 0

theorem mem_setAdd_self (l : List String) (x : String) : x ∈ setAdd l x := by
  unfold setAdd
  split
  · assumption
  · simp

theorem mem_setAdd_of_mem (l : List String) (x y : String) (h : y ∈ l) :
    y ∈ setAdd l x := by
  unfold setAdd
  split
  · exact h
  · simp [h]

theorem createPeer_notifiedPeers (st : ClientState) (p : String) (b : Bool) :
    (createPeer st p b).notifiedPeers = st.notifiedPeers := by
  unfold createPeer
  split <;> rfl

theorem peersEntry_count (st : ClientState) (e : String × Option String)
    (pid : String) :
    (processPeersEntry st e).2.count pid + notifiedInd pid st
      ≤ notifiedInd pid (processPeersEntry st e).1 := by
  obtain ⟨peerId, deviceName⟩ := e
  unfold processPeersEntry createPeer notifiedInd setAdd
  cases deviceName <;> split_ifs <;>
    simp_all [List.count_singleton', List.count_nil] <;> split_ifs <;>
    simp_all [List.count_singleton', List.count_nil] <;>
    first
    | omega
    | (rintro rfl
       simp_all)

theorem peersEvent_count_aux (entries : List (String × Option String)) :
    ∀ (st : ClientState) (acc : List String) (pid : String),
    ((entries.foldl peersFold (st, acc)).2.count pid) + notifiedInd pid st
      ≤ notifiedInd pid ((entries.foldl peersFold (st, acc)).1)
        + acc.count pid := by
  induction entries with
  | nil =>
    intro st acc pid
    rw [List.foldl_nil]
    dsimp only
    omega
  | cons e rest ih =>
    intro st acc pid
    rw [List.foldl_cons]
    have hfold : peersFold (st, acc) e
        = ((processPeersEntry st e).1, acc ++ (processPeersEntry st e).2) :=
      rfl
    rw [hfold]
    have hstep := peersEntry_count st e pid
    have hrest := ih (processPeersEntry st e).1
      (acc ++ (processPeersEntry st e).2) pid
    rw [List.count_append] at hrest
    omega

theorem peersEvent_count (st : ClientState)
    (entries : List (String × Option String)) (pid : String) :
    (processPeersEvent st entries).2.count pid + notifiedInd pid st
      ≤ notifiedInd pid (processPeersEvent st entries).1 := by
  have h := peersEvent_count_aux entries st [] pid
  rw [List.count_nil] at h
  unfold processPeersEvent
  omega

theorem peerJoined_count (st : ClientState) (peerId : String)
    (deviceName : Option String) (pid : String) :
    (processPeerJoined st peerId deviceName).2.count pid + notifiedInd pid st
      ≤ notifiedInd pid (processPeerJoined st peerId deviceName).1 := by
  unfold processPeerJoined createPeer notifiedInd setAdd
  cases deviceName <;> split_ifs <;>
    simp_all [List.count_singleton', List.count_nil] <;> split_ifs <;>
    simp_all [List.count_singleton', List.count_nil]

theorem offer_count (st : ClientState) (sender : String)
    (deviceName : Option String) (pid : String) :
    (processOffer st sender deviceName).2.count pid + notifiedInd pid st
      ≤ notifiedInd pid (processOffer st sender deviceName).1 := by
  unfold processOffer
  by_cases hpe : (st.peers.lookup sender).isSome = true
  · rw [if_pos hpe]
    cases deviceName with
    | none => simp [notifiedInd]
    | some n =>
      by_cases hnot : sender ∈ st.notifiedPeers
      · rw [if_neg (by simp [hnot])]
        simp [notifiedInd]
      · rw [if_pos (by simp [hnot])]
        by_cases hps : pid = sender
        · subst hps
          unfold notifiedInd
          rw [if_neg hnot, if_pos (mem_setAdd_self _ _)]
          simp [List.count_singleton']
        · unfold notifiedInd
          simp only [List.count_singleton']
          rw [if_neg (fun h => hps h.symm)]
          split
          · rename_i hmem
            rw [if_pos (mem_setAdd_of_mem _ _ _ hmem)]
          · omega
  · rw [if_neg hpe]
    simp [notifiedInd]

theorem connect_count (st : ClientState) (peerId : String) (pid : String) :
    (processConnect st peerId).2.count pid + notifiedInd pid st
      ≤ notifiedInd pid (processConnect st peerId).1 := by
  unfold processConnect notifiedInd setAdd
  split_ifs <;>
    simp_all [List.count_singleton', List.count_nil] <;> split_ifs <;>
    simp_all [List.count_singleton', List.count_nil] <;>
    first
    | omega
    | (rintro rfl
       simp_all)

theorem close_count (st : ClientState) (q pid : String) (hne : q ≠ pid) :
    (processClose st q).2.count pid + notifiedInd pid st
      ≤ notifiedInd pid (processClose st q).1 := by
  unfold processClose notifiedInd setRemove
  simp only [List.count_nil, Nat.zero_add]
  have hmem : pid ∈ st.notifiedPeers.filter (fun y => y != q)
      ↔ pid ∈ st.notifiedPeers := by
    rw [List.mem_filter]
    simp [bne_iff_ne]
    intro
    exact (hne ∘ Eq.symm)
  split_ifs <;> simp_all

theorem peerLeft_count (st : ClientState) (q pid : String) :
    (processPeerLeft st q).2.count pid + notifiedInd pid st
      ≤ notifiedInd pid (processPeerLeft st q).1 := by
  unfold processPeerLeft notifiedInd
  simp

theorem legacy_fold_notifiedPeers (ids : List String) :
    ∀ (st : ClientState),
    (ids.foldl (fun s i =>
        if (s.peers.lookup i).isSome then s
        else createPeer s i true) st).notifiedPeers = st.notifiedPeers := by
  induction ids with
  | nil => intro st; rfl
  | cons i rest ih =>
    intro st
    rw [List.foldl_cons, ih]
    split
    · rfl
    · exact createPeer_notifiedPeers st i true

theorem step_count (st : ClientState) (e : RTCEvent) (pid : String)
    (hne : e ≠ RTCEvent.closeEvt pid) :
    (step st e).2.count pid + notifiedInd pid st
      ≤ notifiedInd pid (step st e).1 := by
  cases e with
  | peersEvt entries => exact peersEvent_count st entries pid
  | peersEvtLegacy ids =>
    unfold step
    rw [List.count_nil, Nat.zero_add]
    unfold notifiedInd
    rw [legacy_fold_notifiedPeers ids st]
  | peerJoined p n => exact peerJoined_count st p n pid
  | offerEvt s n => exact offer_count st s n pid
  | connectEvt p => exact connect_count st p pid
  | closeEvt q =>
    have hq : q ≠ pid := by
      intro h
      exact hne (by rw [h])
    exact close_count st q pid hq
  | peerLeftEvt q => exact peerLeft_count st q pid

theorem run_count (events : List RTCEvent) :
    ∀ (st : ClientState) (pid : String),
    (∀ e ∈ events, e ≠ RTCEvent.closeEvt pid) →
    (runEvents st events).2.count pid + notifiedInd pid st
      ≤ notifiedInd pid (runEvents st events).1 := by
  induction events with
  | nil =>
    intro st pid _
    simp [runEvents]
  | cons e rest ih =>
    intro st pid hfree
    have hstep := step_count st e pid (hfree e (by simp))
    have hrest := ih (step st e).1 pid
      (fun x hx => hfree x (by simp [hx]))
    unfold runEvents
    dsimp only
    rw [List.count_append]
    omega

theorem notifiedInd_le_one (pid : String) (st : ClientState) :
    notifiedInd pid st ≤ 1 := by
  unfold notifiedInd
  split <;> omega

/-- C9: starting from any state whose notify guard does not yet contain
the remote id `pid`, any trace of signals referencing it (member lists in
either format, `peer-joined` events, inbound offers, transport connects,
`peer-left` events, and closes of other peers) that contains no close
event for `pid` produces at most one discovery notification for `pid` to
the application layer. -/
theorem peer_discovered_at_most_once (events : List RTCEvent)
    (st : ClientState) (pid : String)
    (hfresh : pid ∉ st.notifiedPeers)
    (hfree : ∀ e ∈ events, e ≠ RTCEvent.closeEvt pid) :
    (runEvents st events).2.count pid ≤ 1 := by
  have h := run_count events st pid hfree
  have h0 : notifiedInd pid st = 0 := by
    unfold notifiedInd
    rw [if_neg hfresh]
  have h1 := notifiedInd_le_one pid (runEvents st events).1
  omega

/-- C9 (witness): a concrete trace in which the same peer is referenced by
a member-list entry, a duplicate `peer-joined`, a transport connect and an
inbound offer produces exactly one notification — in particular at most
one. -/
theorem peer_discovered_at_most_once_witness :
    ("p1" ∉ ClientState.empty.notifiedPeers)
      ∧ (runEvents ClientState.empty
          [RTCEvent.peersEvt [("p1", some "Alpha")],
           RTCEvent.peerJoined "p1" (some "Alpha"),
           RTCEvent.connectEvt "p1",
           RTCEvent.offerEvt "p1" (some "Alpha")]).2.count "p1" ≤ 1 :=
  ⟨by decide,
    peer_discovered_at_most_once
      [RTCEvent.peersEvt [("p1", some "Alpha")],
       RTCEvent.peerJoined "p1" (some "Alpha"),
       RTCEvent.connectEvt "p1",
       RTCEvent.offerEvt "p1" (some "Alpha")]
      ClientState.empty "p1" (by decide) (by decide)⟩

end NotifyOnce

section Relay

/-- A relay-side `EndpointRecord`: the device name and room recorded for a
connection (`deviceInfo` in `server.ts`). -/
structure DeviceInfo where
  name : String
  roomId : String
deriving DecidableEq

/-- The payload of the `room-join-request` event (the spec's
"rendezvous-request"): room id, display name, and the joiner's connection
id. -/
structure RoomJoinRequest where
  roomId : String
  deviceName : String
  requestingSocketId : String
deriving DecidableEq

/-- The relay's process-wide state: `rooms`, `deviceInfo`,
`deviceSubscriptions`, plus the set of live connections
(`io.sockets.sockets` keys). -/
structure ServerState where
  rooms : List (String × List String)
  deviceInfo : List (String × DeviceInfo)
  deviceSubscriptions : List (String × List String)
  liveSockets : List String
deriving DecidableEq

/-- What one `join-room` call emits: the `peer-joined` targets (the other
room members) with its payload, the `room-join-request` deliveries as
`(target, payload)` pairs, and the `peers` member list sent back to the
joiner. -/
structure JoinEmissions where
  peerJoinedTargets : List String
  peerJoinedPayload : String × Option String
  roomJoinRequests : List (String × RoomJoinRequest)
  peersList : List (String × Option String)
deriving DecidableEq

/-- The member set of a room (empty when the room does not exist). -/
def roomMembers (st : ServerState) (roomId : String) : List String :=
  (st.rooms.lookup roomId).getD []

/-- The subscriber set registered for a display name. -/
def subscribersOf (st : ServerState) (deviceName : String) : List String :=
  (st.deviceSubscriptions.lookup deviceName).getD []

/-- One subscriber's `room-join-request` delivery, when it is a live
socket other than the joiner. -/
def joinRequestEntry (live : List String) (sid roomId deviceName : String)
    (s : String) : Option (String × RoomJoinRequest) :=
  if s ∈ live ∧ s ≠ sid then
    some (s, { roomId, deviceName, requestingSocketId := sid })
  else none

/-- The `room-join-request` deliveries of a join: one per subscriber of
the joiner's display name that is a live socket and is not the joiner
itself. -/
def roomJoinRequestsFor (subs : List String) (live : List String)
    (sid roomId deviceName : String) : List (String × RoomJoinRequest) :=
  subs.filterMap (joinRequestEntry live sid roomId deviceName)

/-- The `join-room` handler of `server.ts`: add the socket to the room,
record its device info when a name is given, emit `peer-joined` to the
other members, emit `room-join-request` to the live subscribers of the
name (excluding the joiner), and send the joiner the member list with any
known names. -/
def joinRoom (st : ServerState) (sid roomId : String)
    (deviceName : Option String) : ServerState × JoinEmissions :=
  let members1 := setAdd (roomMembers st roomId) sid
  let rooms1 := assocSet st.rooms roomId members1
  let deviceInfo1 :=
    match deviceName with
    | some n => assocSet st.deviceInfo sid { name := n, roomId }
    | none => st.deviceInfo
  let st1 := { st with rooms := rooms1, deviceInfo := deviceInfo1 }
  let others := members1.filter (fun m => m != sid)
  let requests :=
    match deviceName with
    | some n => roomJoinRequestsFor (subscribersOf st n) st.liveSockets sid
        roomId n
    | none => []
  (st1,
   { peerJoinedTargets := others,
     peerJoinedPayload := (sid, (deviceInfo1.lookup sid).map DeviceInfo.name),
     roomJoinRequests := requests,
     peersList := others.map (fun p =>
       (p, (deviceInfo1.lookup p).map DeviceInfo.name)) })

/-- The `subscribe-devices` handler of `server.ts`: add the socket to each
named subscriber set. -/
def subscribeDevices (st : ServerState) (sid : String)
    (deviceNames : List String) : ServerState :=
  { st with
    deviceSubscriptions := deviceNames.foldl
      (fun subs n => assocSet subs n (setAdd ((subs.lookup n).getD []) sid))
      st.deviceSubscriptions }

end Relay

section RendezvousDelivery

theorem roomJoinRequestsFor_mem (subs live : List String)
    (sid roomId nm t : String) (p : RoomJoinRequest)
    (h : (t, p) ∈ roomJoinRequestsFor subs live sid roomId nm) :
    t ∈ subs ∧ t ∈ live ∧ t ≠ sid
      ∧ p = { roomId := roomId, deviceName := nm,
              requestingSocketId := sid } := by
  unfold roomJoinRequestsFor at h
  rw [List.mem_filterMap] at h
  obtain ⟨s, hs, hmap⟩ := h
  unfold joinRequestEntry at hmap
  split_ifs at hmap with hpass
  · injection hmap with hmap
    injection hmap with h1 h2
    subst h1
    exact ⟨hs, hpass.1, hpass.2, h2.symm⟩

theorem roomJoinRequestsFor_count_zero (subs live : List String)
    (sid roomId nm t : String) (ht : t ∉ subs) :
    ((roomJoinRequestsFor subs live sid roomId nm).map Prod.fst).count t
      = 0 := by
  induction subs with
  | nil => rfl
  | cons s rest ih =>
    have hts : t ≠ s := fun h => ht (by rw [h]; exact List.mem_cons_self s rest)
    have ht' : t ∉ rest := fun h => ht (List.mem_cons_of_mem s h)
    unfold roomJoinRequestsFor at ih ⊢
    by_cases hpass : s ∈ live ∧ s ≠ sid
    · rw [@List.filterMap_cons_some String (String × RoomJoinRequest)
        (joinRequestEntry live sid roomId nm) s rest
        (s, { roomId := roomId, deviceName := nm,
              requestingSocketId := sid }) (if_pos hpass)]
      simp only [List.map_cons, List.count_cons, ih ht']
      simp only [beq_iff_eq, Nat.zero_add]
      rw [if_neg (fun (h : s = t) => hts h.symm)]
    · rw [@List.filterMap_cons_none String (String × RoomJoinRequest)
        (joinRequestEntry live sid roomId nm) s rest (if_neg hpass)]
      exact ih ht'

theorem roomJoinRequestsFor_count_one (subs live : List String)
    (sid roomId nm t : String) (hnd : subs.Nodup)
    (ht : t ∈ subs) (hlive : t ∈ live) (hts : t ≠ sid) :
    ((roomJoinRequestsFor subs live sid roomId nm).map Prod.fst).count t
      = 1 := by
  induction subs with
  | nil => cases ht
  | cons s rest ih =>
    rw [List.nodup_cons] at hnd
    by_cases heq : t = s
    · subst heq
      unfold roomJoinRequestsFor
      rw [@List.filterMap_cons_some String (String × RoomJoinRequest)
        (joinRequestEntry live sid roomId nm) t rest
        (t, { roomId := roomId, deviceName := nm,
              requestingSocketId := sid }) (if_pos ⟨hlive, hts⟩)]
      simp only [List.map_cons, List.count_cons]
      have hz := roomJoinRequestsFor_count_zero rest live sid roomId nm t hnd.1
      unfold roomJoinRequestsFor at hz
      rw [hz]
      simp
    · have hmem : t ∈ rest := by
        rcases List.mem_cons.mp ht with h | h
        · exact absurd h heq
        · exact h
      unfold roomJoinRequestsFor at ih ⊢
      by_cases hpass : s ∈ live ∧ s ≠ sid
      · rw [@List.filterMap_cons_some String (String × RoomJoinRequest)
          (joinRequestEntry live sid roomId nm) s rest
          (s, { roomId := roomId, deviceName := nm,
                requestingSocketId := sid }) (if_pos hpass)]
        simp only [List.map_cons, List.count_cons]
        rw [ih hnd.2 hmem]
        simp only [beq_iff_eq]
        rw [if_neg (fun (h : s = t) => heq h.symm)]
      · rw [@List.filterMap_cons_none String (String × RoomJoinRequest)
          (joinRequestEntry live sid roomId nm) s rest (if_neg hpass)]
        exact ih hnd.2 hmem

/-- C6: when a connection joins a room carrying a display name, every
`room-join-request` (the spec's "rendezvous-request") emitted goes to a
connection subscribed to that name, live, and different from the joiner,
carrying exactly the room id, the display name and the joiner's connection
id; and each such subscribed connection receives it exactly once.  In
particular no unrelated connection receives it and the joiner never
receives its own. -/
theorem rendezvous_request_delivery (st : ServerState)
    (sid roomId nm : String) (hnd : (subscribersOf st nm).Nodup) :
    (∀ t p, (t, p) ∈ (joinRoom st sid roomId (some nm)).2.roomJoinRequests →
        t ∈ subscribersOf st nm ∧ t ∈ st.liveSockets ∧ t ≠ sid
          ∧ p = { roomId := roomId, deviceName := nm,
                  requestingSocketId := sid })
      ∧ (∀ t, t ∈ subscribersOf st nm → t ∈ st.liveSockets → t ≠ sid →
          (((joinRoom st sid roomId
              (some nm)).2.roomJoinRequests.map Prod.fst).count t = 1)) := by
  constructor
  · intro t p h
    exact roomJoinRequestsFor_mem (subscribersOf st nm) st.liveSockets sid
      roomId nm t p h
  · intro t h1 h2 h3
    exact roomJoinRequestsFor_count_one (subscribersOf st nm) st.liveSockets
      sid roomId nm t hnd h1 h2 h3

/-- The relay state of the C6 witness: `s1` subscribed to `"Alice"` via
`subscribe-devices`, and an unrelated live connection `s2`. -/
def srvSubscribed : ServerState :=
  subscribeDevices
    { rooms := [], deviceInfo := [], deviceSubscriptions := [],
      liveSockets := ["s1", "s2", "s3"] } "s1" ["Alice"]

/-- C6 (witness): after `subscribe-devices(["Alice"])` from `s1`, a join by
`s3` with device name `"Alice"` delivers the rendezvous request exactly
once to `s1`. -/
theorem rendezvous_request_delivery_witness :
    (subscribersOf srvSubscribed "Alice").Nodup
      ∧ (((joinRoom srvSubscribed "s3" "424242"
            (some "Alice")).2.roomJoinRequests.map Prod.fst).count "s1"
          = 1) :=
  ⟨by decide,
    (rendezvous_request_delivery srvSubscribed "s3" "424242" "Alice"
      (by decide)).2 "s1" (by decide) (by decide) (by decide)⟩

end RendezvousDelivery

section InitiatorRoles

theorem map_fst_pair {α β : Type} (g : α → β) (l : List α) :
    (l.map (fun p => (p, g p))).map Prod.fst = l := by
  rw [List.map_map]
  have h : (Prod.fst ∘ fun p => (p, g p)) = fun (p : α) => p := rfl
  rw [h]
  exact List.map_id l

theorem peersEntry_lookup (st : ClientState) (e : String × Option String)
    (pid : String) :
    (processPeersEntry st e).1.peers.lookup pid
      = if e.1 = pid ∧ st.peers.lookup pid = none then some true
        else st.peers.lookup pid := by
  obtain ⟨peerId, deviceName⟩ := e
  have hpeers : (processPeersEntry st (peerId, deviceName)).1.peers
      = (if (st.peers.lookup peerId).isSome then st
         else createPeer st peerId true).peers := by
    unfold processPeersEntry
    dsimp only
    cases deviceName <;> split_ifs <;> rfl
  rw [hpeers]
  by_cases hps : (st.peers.lookup peerId).isSome = true
  · rw [if_pos hps]
    have hcond : ¬ (peerId = pid ∧ st.peers.lookup pid = none) := by
      rintro ⟨rfl, hnone⟩
      rw [hnone] at hps
      simp at hps
    rw [if_neg hcond]
  · rw [if_neg hps]
    have hnone : st.peers.lookup peerId = none := by
      cases h : st.peers.lookup peerId
      · rfl
      · rw [h] at hps
        simp at hps
    unfold createPeer
    rw [if_neg hps]
    show (st.peers ++ [(peerId, true)]).lookup pid = _
    rw [List.lookup_append]
    by_cases hpe : peerId = pid
    · subst hpe
      rw [hnone, if_pos ⟨rfl, rfl⟩]
      simp [List.lookup_cons]
    · have hbeq : (pid == peerId) = false := by
        rw [beq_eq_false_iff_ne]
        exact fun h => hpe h.symm
      have hsingle : List.lookup pid [(peerId, true)] = none := by
        rw [List.lookup_cons, hbeq]
        rfl
      rw [hsingle, if_neg (fun hand => hpe hand.1)]
      cases st.peers.lookup pid <;> rfl

theorem peersFold_lookup_pres (entries : List (String × Option String)) :
    ∀ (acc : ClientState × List String) (pid : String) (v : Bool),
    acc.1.peers.lookup pid = some v →
    ((entries.foldl peersFold acc).1).peers.lookup pid = some v := by
  induction entries with
  | nil =>
    intro acc pid v h
    exact h
  | cons e rest ih =>
    intro acc pid v h
    rw [List.foldl_cons]
    apply ih
    show (processPeersEntry acc.1 e).1.peers.lookup pid = some v
    rw [peersEntry_lookup]
    have hcond : ¬ (e.1 = pid ∧ acc.1.peers.lookup pid = none) := by
      rintro ⟨_, hnone⟩
      rw [hnone] at h
      exact Option.noConfusion h
    rw [if_neg hcond]
    exact h

theorem peersEvent_lookup (entries : List (String × Option String)) :
    ∀ (st : ClientState) (acc : List String) (pid : String),
    st.peers.lookup pid = none → pid ∈ entries.map Prod.fst →
    ((entries.foldl peersFold (st, acc)).1).peers.lookup pid = some true := by
  induction entries with
  | nil =>
    intro st acc pid _ hmem
    simp at hmem
  | cons e rest ih =>
    intro st acc pid h hmem
    rw [List.foldl_cons]
    have hfold : peersFold (st, acc) e
        = ((processPeersEntry st e).1, acc ++ (processPeersEntry st e).2) :=
      rfl
    rw [hfold]
    by_cases hpe : e.1 = pid
    · apply peersFold_lookup_pres
      show (processPeersEntry st e).1.peers.lookup pid = some true
      rw [peersEntry_lookup, if_pos ⟨hpe, h⟩]
    · have hmem' : pid ∈ rest.map Prod.fst := by
        simp only [List.map_cons, List.mem_cons] at hmem
        rcases hmem with h1 | h1
        · exact absurd h1.symm hpe
        · exact h1
      have h2 : (processPeersEntry st e).1.peers.lookup pid = none := by
        rw [peersEntry_lookup, if_neg (fun hand => hpe hand.1)]
        exact h
      exact ih (processPeersEntry st e).1 _ pid h2 hmem'

theorem peerJoined_creates_nonInitiator (st : ClientState) (peerId : String)
    (deviceName : Option String)
    (hnot : peerId ∉ st.notifiedPeers)
    (hnew : st.peers.lookup peerId = none) :
    (processPeerJoined st peerId deviceName).1.peers.lookup peerId
      = some false := by
  unfold processPeerJoined
  rw [if_neg hnot]
  have hps : ¬ (st.peers.lookup peerId).isSome = true := by
    rw [hnew]
    simp
  have hlook : (createPeer st peerId false).peers.lookup peerId
      = some false := by
    unfold createPeer
    rw [if_neg hps]
    show (st.peers ++ [(peerId, false)]).lookup peerId = some false
    rw [List.lookup_append, hnew]
    simp [List.lookup_cons]
  rw [if_neg hps]
  cases deviceName <;> dsimp only <;> split_ifs <;> exact hlook

/-- C3 (amended): when an endpoint joins a room, the relay sends
`peer-joined` to each existing member and the member list back to the
joiner; processing these, each already-present endpoint creates its
handshake for the joiner as NON-initiator (`peer-joined` handler,
`initiator = false`), while the newly joined endpoint creates its
handshake for each existing member as initiator (`peers` handler,
`initiator = true`) — exactly one side of each pair is initiator, but the
roles are the opposite of the claim's. -/
theorem initiator_roles_amended (srv : ServerState) (ce cj : ClientState)
    (e j roomId : String) (nmJ : Option String)
    (hmem : e ∈ roomMembers srv roomId) (hej : e ≠ j)
    (hceN : j ∉ ce.notifiedPeers) (hceP : ce.peers.lookup j = none)
    (hcjP : cj.peers.lookup e = none) :
    ((processPeerJoined ce
        ((joinRoom srv j roomId nmJ).2.peerJoinedPayload.1)
        ((joinRoom srv j roomId nmJ).2.peerJoinedPayload.2)).1.peers.lookup j
        = some false)
      ∧ ((processPeersEvent cj
            ((joinRoom srv j roomId nmJ).2.peersList)).1.peers.lookup e
          = some true) := by
  constructor
  · have hpid : (joinRoom srv j roomId nmJ).2.peerJoinedPayload.1 = j := by
      cases nmJ <;> rfl
    rw [hpid]
    exact peerJoined_creates_nonInitiator ce j _ hceN hceP
  · have hfst : (joinRoom srv j roomId nmJ).2.peersList.map Prod.fst
        = (setAdd (roomMembers srv roomId) j).filter (fun m => m != j) := by
      cases nmJ <;> exact map_fst_pair _ _
    have hin : e ∈ (joinRoom srv j roomId nmJ).2.peersList.map Prod.fst := by
      rw [hfst, List.mem_filter]
      refine ⟨mem_setAdd_of_mem _ _ _ hmem, ?_⟩
      simp [bne_iff_ne, hej]
    exact peersEvent_lookup _ cj [] e hcjP hin

/-- The relay state of the C3 scenario: endpoint `e1` (named `"Alpha"`)
already a member of room `123456`. -/
def srvTwoPeers : ServerState :=
  { rooms := [("123456", ["e1"])],
    deviceInfo := [("e1", { name := "Alpha", roomId := "123456" })],
    deviceSubscriptions := [], liveSockets := ["e1", "j1"] }

/-- C3 (counterexample): when `j1` joins room `123456` in which `e1`
already holds membership, the relay delivers `peer-joined` to `e1`, and
`e1`'s handler creates its handshake for `j1` with `initiator = false` —
not as initiator, refuting the claim that the side already holding room
membership is the initiator. -/
theorem initiator_roles_counterexample :
    ("e1" ∈ (joinRoom srvTwoPeers "j1" "123456"
        (some "Joiner")).2.peerJoinedTargets)
      ∧ ((processPeerJoined ClientState.empty "j1"
            (some "Joiner")).1.peers.lookup "j1" = some false)
      ∧ ¬ ((processPeerJoined ClientState.empty "j1"
            (some "Joiner")).1.peers.lookup "j1" = some true) := by
  refine ⟨by decide, by decide, by decide⟩

/-- C3 (witness for the amended theorem): instantiated at the concrete
two-endpoint room, the existing member ends with a non-initiator handshake
for the joiner and the joiner with an initiator handshake for the
member. -/
theorem initiator_roles_amended_witness :
    ("e1" ∈ roomMembers srvTwoPeers "123456")
      ∧ (((processPeerJoined ClientState.empty
            ((joinRoom srvTwoPeers "j1" "123456"
                (some "Joiner")).2.peerJoinedPayload.1)
            ((joinRoom srvTwoPeers "j1" "123456"
                (some "Joiner")).2.peerJoinedPayload.2)).1.peers.lookup "j1"
          = some false)
        ∧ ((processPeersEvent ClientState.empty
              ((joinRoom srvTwoPeers "j1" "123456"
                  (some "Joiner")).2.peersList)).1.peers.lookup "e1"
            = some true)) :=
  ⟨by decide,
    initiator_roles_amended srvTwoPeers ClientState.empty ClientState.empty
      "e1" "j1" "123456" (some "Joiner") (by decide) (by decide) (by decide)
      (by decide) (by decide)⟩

end InitiatorRoles

section PairingStore

/-- A `PairingRecord` of `pairingHistory.ts`. -/
structure PairingRecord where
  deviceName : String
  roomId : String
  lastConnected : Nat
  connectionCount : Nat
deriving DecidableEq

/-- Stable insertion (descending by `lastConnected`), placing a record
after all records with a strictly larger or equal timestamp — the
behaviour of the stable JS `Array.prototype.sort` with comparator
`(a, b) => b.lastConnected - a.lastConnected`. -/
def insertByLastConnected (r : PairingRecord) :
    List PairingRecord → List PairingRecord
  | [] => [r]
  | s :: rest =>
    if s.lastConnected < r.lastConnected then r :: s :: rest
    else s :: insertByLastConnected r rest

/-- Embedding of `getPairingHistory` in `pairingHistory.ts` applied to the stored
records: sort by `lastConnected`, most recent first (stable). -/
def getPairingHistory (stored : List PairingRecord) : List PairingRecord :=
  stored.foldr insertByLastConnected []

/-- Embedding of `savePairing(deviceName, roomId)` in `pairingHistory.ts` at time
`now`: read the sorted history; update the existing record for the name in
place (bumping its timestamp and count) or push a fresh record at the end;
then keep only the first 10 entries (`history.slice(0, 10)`). -/
def savePairing (stored : List PairingRecord) (deviceName roomId : String)
    (now : Nat) : List PairingRecord :=
  let history := getPairingHistory stored
  match history.findIdx? (fun r => r.deviceName == deviceName) with
  | some i =>
    let record : PairingRecord :=
      { deviceName, roomId, lastConnected := now,
        connectionCount :=
          ((history.get? i).map PairingRecord.connectionCount).getD 0 + 1 }
    (history.set i record).take 10
  | none =>
    let record : PairingRecord :=
      { deviceName, roomId, lastConnected := now, connectionCount := 1 }
    (history ++ [record]).take 10

/-- A full store: ten distinct remote names, timestamps 1000 down to
910. -/
def tenRecords : List PairingRecord :=
  [{ deviceName := "d0", roomId := "100000", lastConnected := 1000,
     connectionCount := 3 },
   { deviceName := "d1", roomId := "100001", lastConnected := 990,
     connectionCount := 1 },
   { deviceName := "d2", roomId := "100002", lastConnected := 980,
     connectionCount := 1 },
   { deviceName := "d3", roomId := "100003", lastConnected := 970,
     connectionCount := 2 },
   { deviceName := "d4", roomId := "100004", lastConnected := 960,
     connectionCount := 1 },
   { deviceName := "d5", roomId := "100005", lastConnected := 950,
     connectionCount := 1 },
   { deviceName := "d6", roomId := "100006", lastConnected := 940,
     connectionCount := 5 },
   { deviceName := "d7", roomId := "100007", lastConnected := 930,
     connectionCount := 1 },
   { deviceName := "d8", roomId := "100008", lastConnected := 920,
     connectionCount := 1 },
   { deviceName := "d9", roomId := "100009", lastConnected := 910,
     connectionCount := 1 }]

/-- C7 (code bug): saving a pairing for a new remote name into a store
already holding 10 records keeps the 10 old records and silently drops the
newly saved one — the new record (with the newest `lastConnected`) is
pushed at the end of the descending-sorted history and `slice(0, 10)` cuts
it off, so the store is NOT the 10 most-recently-used records, the
newly-paired device is never remembered, and the module's own purpose
(pairing history for automatic reconnection) and its `Keep only last 10
pairings` comment are defeated.  The claim describes the evidently
intended LRU behaviour; the code evicts the wrong record. -/
theorem savePairing_drops_new_record_at_capacity :
    ((savePairing tenRecords "brand-new" "123456" 2000).map
        PairingRecord.deviceName).contains "brand-new" = false
      ∧ (savePairing tenRecords "brand-new" "123456" 2000).length = 10
      ∧ savePairing tenRecords "brand-new" "123456" 2000 = tenRecords := by
  refine ⟨by decide, by decide, by decide⟩

end PairingStore

section CloseCleanup

/-- The application-level state reached by the peer-close path: the
`useWebRTC` refs, the `App.tsx` per-peer bookkeeping touched by
`handlePeerDisconnected` (`processedPeersRef`, `discoveredDevices`), and
the transfer engine's state. -/
structure AppState where
  rtc : ClientState
  processedPeers : List String
  discoveredDevices : List (String × String)
  transfer : TransferState
deriving DecidableEq

/-- The complete close path for a peer: the `peer.on('close')` handler of
`useWebRTC.ts` followed by `handlePeerDisconnected` of `App.tsx` (remove
from `processedPeersRef`, filter the device out of `discoveredDevices`).
Neither handler references the transfer engine, so the `transfer`
component is carried over unchanged — no session and no salvage timer is
cancelled. -/
def peerCloseApp (app : AppState) (peerId : String) : AppState :=
  { rtc := (processClose app.rtc peerId).1,
    processedPeers := setRemove app.processedPeers peerId,
    discoveredDevices := app.discoveredDevices.filter (fun d => d.1 != peerId),
    transfer := app.transfer }

/-- Metadata of the mid-transfer session used in the C10 scenario. -/
def mdTwoChunks : FileMetadata :=
  { fileName := "doc.txt", fileSize := 2000, fileType := "text/plain",
    totalChunks := 2, fromName := "Peer", timestamp := 0 }

/-- Transfer state after `mdTwoChunks` and one 500-byte chunk: the session
is open and its salvage timer armed with captured chunk count 1. -/
def stMidTransfer : TransferState :=
  (handleFileChunk (handleFileMetadata TransferState.empty mdTwoChunks 0)
    (List.replicate 500 9) (some "Peer") 1).1

/-- Application state mid-transfer from peer `p`. -/
def appMidTransfer : AppState :=
  { rtc := { peers := [("p", false)], connectedPeers := ["p"],
             notifiedPeers := ["p"], peerDeviceNames := [("p", "Peer")] },
    processedPeers := ["p"], discoveredDevices := [("p", "Peer")],
    transfer := stMidTransfer }

/-- C10 (counterexample): with a transfer session from peer `p` open and
its salvage timer pending, running the complete close path for `p` leaves
the timer in place, and when it later fires it emits a completion for the
transfer — after the peer is gone — refuting the claim that the close
cancels the pending salvage timer so that no completion fires
afterwards. -/
theorem salvage_timer_survives_close_counterexample :
    ((peerCloseApp appMidTransfer "p").transfer.fileTimeouts
        = [("doc.txt", 1)])
      ∧ ((fireTimeout (peerCloseApp appMidTransfer "p").transfer "doc.txt" 1
            (some "Peer")).2.isSome = true)
      ∧ (peerCloseApp appMidTransfer "p").rtc.peers = [] := by
  refine ⟨by decide, by decide, by decide⟩

/-- C10 (amended): the close path leaves the transfer engine's state —
its sessions and pending salvage timers included — completely unchanged,
and a salvage timer armed for a still-present session before the close
still completes the transfer with the data on hand when it fires after the
peer is gone. -/
theorem peer_close_leaves_transfer_state (app : AppState)
    (peerId fileName : String) (cnt : Nat) (sender : Option String)
    (fd : FileChunkData)
    (hlk : app.transfer.fileChunks.lookup fileName = some fd)
    (hcnt : fd.chunks.length = cnt) :
    ((peerCloseApp app peerId).transfer = app.transfer)
      ∧ ((fireTimeout (peerCloseApp app peerId).transfer fileName cnt
            sender).2.isSome = true) := by
  refine ⟨rfl, ?_⟩
  have h : (peerCloseApp app peerId).transfer = app.transfer := rfl
  rw [h, fireTimeout_eq_of_lookup app.transfer fileName cnt sender fd hlk
    hcnt]
  rfl

/-- C10 (witness for the amended theorem): instantiated at the concrete
mid-transfer state with peer `p` closing. -/
theorem peer_close_leaves_transfer_state_witness :
    (stMidTransfer.fileChunks.lookup "doc.txt"
        = some { chunks := [List.replicate 500 9], metadata := mdTwoChunks,
                 receivedSize := 500, lastChunkTime := 1 })
      ∧ (((peerCloseApp appMidTransfer "p").transfer = appMidTransfer.transfer)
        ∧ ((fireTimeout (peerCloseApp appMidTransfer "p").transfer "doc.txt" 1
              (some "Peer")).2.isSome = true)) :=
  ⟨by decide,
    peer_close_leaves_transfer_state appMidTransfer "p" "doc.txt" 1
      (some "Peer")
      { chunks := [List.replicate 500 9], metadata := mdTwoChunks,
        receivedSize := 500, lastChunkTime := 1 }
      (by decide) (by decide)⟩

end CloseCleanup
